import Mathlib

/-!
Verification of the pitch-detection core of `src/SoundPianoTuner_backup.tsx`.

The numeric semantics of the TypeScript source is embedded over `ℝ`
(JavaScript floating-point arithmetic is idealised as real arithmetic).
An audio buffer (`Float32Array` of length `N`) is modelled as a function
`ℕ → ℝ` together with its length `N`; reads beyond the length, which yield
`undefined` in JavaScript and are coalesced to `0` by the source
(`ac[peakLag + 1] ?? 0`), coincide with the value `0` that the loop-sum
definitions below give for out-of-range lags.

The in-place Hann windowing the source performs on its argument buffer is
modelled by explicit state passing: `detectPitchAutoCorrelation` returns the
final contents of the caller's buffer together with the detection result.
-/

/-- `const A4 = 440`. -/
noncomputable def A4 : ℝ := 440

/-- `const A4_MIDI = 69`. -/
def A4_MIDI : ℤ := 69

/-- `const NOTE_NAMES = ["C", "C♯", ..., "B"]`. -/
def NOTE_NAMES : List String :=
  ["C", "C♯", "D", "D♯", "E", "F", "F♯", "G", "G♯", "A", "A♯", "B"]

/-- One entry of the `GUITAR_STD` reference table: `{ name, midi, freq }`. -/
structure GuitarString where
  name : String
  midi : ℤ
  freq : ℝ

/-- `const GUITAR_STD = [...]`, the six-entry guitar reference table. -/
noncomputable def GUITAR_STD : List GuitarString :=
  [⟨"E2", 40, 82.4069⟩, ⟨"A2", 45, 110.0⟩, ⟨"D3", 50, 146.832⟩,
   ⟨"G3", 55, 195.998⟩, ⟨"B3", 59, 246.942⟩, ⟨"E4", 64, 329.628⟩]

/-- `freqToMidi(freq) = Math.round(12 * Math.log2(freq / A4) + A4_MIDI)`. -/
noncomputable def freqToMidi (freq : ℝ) : ℤ :=
  round (12 * Real.logb 2 (freq / A4) + (A4_MIDI : ℝ))

/-- `midiToFreq(midi) = A4 * Math.pow(2, (midi - A4_MIDI) / 12)`. -/
noncomputable def midiToFreq (midi : ℤ) : ℝ :=
  A4 * (2 : ℝ) ^ (((midi : ℝ) - (A4_MIDI : ℝ)) / 12)

/-- `midiToName(midi)`: looks up `NOTE_NAMES[(midi + 1200) % 12]` (JavaScript
`%` is the truncating remainder, `Int.tmod`; an index outside the array reads
`undefined`, which string interpolation renders as `"undefined"`) and appends
the octave `Math.floor(midi / 12) - 1` (flooring division, `Int.fdiv`). -/
def midiToName (midi : ℤ) : String :=
  let idx : ℤ := Int.tmod (midi + 1200) 12
  let name : String := if 0 ≤ idx then NOTE_NAMES.getD idx.toNat "undefined" else "undefined"
  name ++ toString (Int.fdiv midi 12 - 1)

/-- `centsOff(freq, midi) = Math.round(1200 * Math.log2(freq / midiToFreq(midi)))`. -/
noncomputable def centsOff (freq : ℝ) (midi : ℤ) : ℤ :=
  round (1200 * Real.logb 2 (freq / midiToFreq midi))

/-- The Hann coefficient `0.5 * (1 - Math.cos((2 * Math.PI * i) / (buf.length - 1)))`
applied to sample `i` of a buffer of length `N`. -/
noncomputable def hannCoeff (N : ℕ) (i : ℕ) : ℝ :=
  0.5 * (1 - Real.cos (2 * Real.pi * (i : ℝ) / ((N : ℝ) - 1)))

/-- The buffer contents after the in-place windowing loop
`for (i = 0; i < buf.length; i++) buf[i] *= hannCoeff`: entries below the
length are scaled, the rest of the model function is untouched. -/
noncomputable def hannWindowed (N : ℕ) (x : ℕ → ℝ) : ℕ → ℝ :=
  fun i => if i < N then x i * hannCoeff N i else x i

/-- `buf.reduce((s, x) => s + x * x, 0)`, as a left fold over the indices. -/
noncomputable def sumSqLoop (N : ℕ) (w : ℕ → ℝ) : ℝ :=
  (List.range N).foldl (fun s i => s + w i * w i) 0

/-- `rms = Math.sqrt(buf.reduce((s, x) => s + x * x, 0) / size)`. -/
noncomputable def rmsVal (N : ℕ) (w : ℕ → ℝ) : ℝ :=
  Real.sqrt (sumSqLoop N w / (N : ℝ))

/-- One autocorrelation entry:
`for (i = 0; i + lag < size; i++) sum += buf[i] * buf[i + lag]` — a left fold
over `i < N - lag`. For `lag ≥ N` the loop body never runs and the value is
`0`, matching the `?? 0` coalescing of out-of-range reads in the source. -/
noncomputable def acLoop (N : ℕ) (w : ℕ → ℝ) (lag : ℕ) : ℝ :=
  (List.range (N - lag)).foldl (fun s i => s + w i * w (i + lag)) 0

/-- `minLag = Math.floor(sampleRate / 1000)`, clamped to `ℕ` (for a negative
floor the JavaScript loop iterations at negative lags read `undefined` and
never update the peak, so the effective lower bound is `0`). -/
noncomputable def minLagN (R : ℝ) : ℕ := (⌊R / 1000⌋).toNat

/-- `maxLag = Math.floor(sampleRate / 70)`, clamped to `ℕ`. -/
noncomputable def maxLagN (R : ℝ) : ℕ := (⌊R / 70⌋).toNat

/-- One iteration of the peak-search loop. The accumulator is `none` while
`peakLag = -1, peakVal = -Infinity` (no finite autocorrelation value ever
equals `-Infinity`, and every finite value exceeds it, so the sentinel state
is faithfully an `Option`); otherwise it is `some (peakLag, peakVal)` and the
source condition `ac[lag] > peakVal` updates it. -/
noncomputable def peakFold (acf : ℕ → ℝ) : Option (ℕ × ℝ) → ℕ → Option (ℕ × ℝ)
  | none, lag => some (lag, acf lag)
  | some pv, lag => if pv.2 < acf lag then some (lag, acf lag) else some pv

/-- `for (lag = minLag; lag < Math.min(maxLag, size); lag++) ...`: the peak
search over the half-open lag range `[lo, hi)`. -/
noncomputable def peakPick (acf : ℕ → ℝ) (lo hi : ℕ) : Option (ℕ × ℝ) :=
  (List.range' lo (hi - lo)).foldl (peakFold acf) none

/-- Lines 62–86 of the source: peak search, the `peakLag <= 0` rejection,
parabolic interpolation (`denom ? 0.5 * (y1 - y3) / denom : 0` — `0` is falsy
in JavaScript, hence the `denom = 0` test), the frequency `sampleRate / trueLag`,
and the `[50, 1500]` sanity filter. The `!isFinite(freq)` test of the source is
vacuous over `ℝ`: the one JavaScript input producing `±Infinity`, `trueLag = 0`,
yields `freq = 0` here, which the `freq < 50` test likewise rejects. -/
noncomputable def pickAndRefine (N : ℕ) (R : ℝ) (w : ℕ → ℝ) : Option ℝ :=
  match peakPick (acLoop N w) (minLagN R) (min (maxLagN R) N) with
  | none => none
  | some pv =>
      if pv.1 = 0 then none
      else
        let y1 := acLoop N w (pv.1 - 1)
        let y2 := acLoop N w pv.1
        let y3 := acLoop N w (pv.1 + 1)
        let denom := y1 - 2 * y2 + y3
        let shift := if denom = 0 then 0 else 0.5 * (y1 - y3) / denom
        let freq := R / ((pv.1 : ℝ) + shift)
        if freq < 50 ∨ 1500 < freq then none else some freq

/-- The body of `detectPitchAutoCorrelation` after the windowing loop:
the silence gate `if (rms < 0.008) return null` followed by the
autocorrelation / peak-pick / refine stages. -/
noncomputable def analyzeWindowed (N : ℕ) (R : ℝ) (w : ℕ → ℝ) : Option ℝ :=
  if rmsVal N w < 0.008 then none else pickAndRefine N R w

/-- The detection result of `detectPitchAutoCorrelation(buf, sampleRate)`
(`null` is `none`). -/
noncomputable def detectRes (N : ℕ) (R : ℝ) (x : ℕ → ℝ) : Option ℝ :=
  analyzeWindowed N R (hannWindowed N x)

/-- `detectPitchAutoCorrelation`, with the in-place mutation made explicit:
the first component is the caller's buffer after the call (Hann-windowed
before any analysis), the second is the returned value. -/
noncomputable def detectPitchAutoCorrelation (N : ℕ) (R : ℝ) (x : ℕ → ℝ) :
    (ℕ → ℝ) × Option ℝ :=
  (hannWindowed N x, detectRes N R x)

/-- The three frame classes named by the spec. The source itself never
reifies this type: both non-detected classes are returned as `null`. -/
inductive PitchClass where
  | silence : PitchClass
  | noPitch : PitchClass
  | detected : ℝ → PitchClass

/-- The value `detectPitchAutoCorrelation` actually returns for each class:
both `silence` and `noPitch` collapse to `none`. -/
def PitchClass.toResult : PitchClass → Option ℝ
  | PitchClass.silence => none
  | PitchClass.noPitch => none
  | PitchClass.detected f => some f

/-- The branch structure of `analyzeWindowed` with each return site tagged by
the class the spec assigns to it: the `rms < 0.008` early return is the
silence gate, the `peakLag <= 0` and sanity-bound rejections are no-pitch. -/
noncomputable def classifyWindowed (N : ℕ) (R : ℝ) (w : ℕ → ℝ) : PitchClass :=
  if rmsVal N w < 0.008 then PitchClass.silence
  else
    match peakPick (acLoop N w) (minLagN R) (min (maxLagN R) N) with
    | none => PitchClass.noPitch
    | some pv =>
        if pv.1 = 0 then PitchClass.noPitch
        else
          let y1 := acLoop N w (pv.1 - 1)
          let y2 := acLoop N w pv.1
          let y3 := acLoop N w (pv.1 + 1)
          let denom := y1 - 2 * y2 + y3
          let shift := if denom = 0 then 0 else 0.5 * (y1 - y3) / denom
          let freq := R / ((pv.1 : ℝ) + shift)
          if freq < 50 ∨ 1500 < freq then PitchClass.noPitch
          else PitchClass.detected freq

/-- One step of the nearest-guitar-string loop in `loop`:
`if (d < bestDiff) { best = s; bestDiff = d; }`. -/
noncomputable def nearestStep (f : ℝ) (st : GuitarString × ℝ) (s : GuitarString) :
    GuitarString × ℝ :=
  if |f - s.freq| < st.2 then (s, |f - s.freq|) else st

/-- The nearest-reference search of `loop`, generalised over the table:
`best = table[0]; bestDiff = Math.abs(f - best.freq); for (s of table) ...`
(the source instantiates `table` with `GUITAR_STD`; an empty table would fault
on `table[0]`, hence `none`). -/
noncomputable def nearestRef (f : ℝ) : List GuitarString → Option GuitarString
  | [] => none
  | t :: rest => some (((t :: rest).foldl (nearestStep f) (t, |f - t.freq|)).1)

/-- The nearest-string display name `loop` computes for a detected frequency. -/
noncomputable def nearestName (f : ℝ) : String :=
  match nearestRef f GUITAR_STD with
  | some b => b.name
  | none => "—"

/-- The display state `loop` publishes per tick: `freq`, `midi`, `note`,
`offset`, `nearestString`. -/
structure TickDisplay where
  freq : Option ℝ
  midi : Option ℤ
  note : String
  offset : ℤ
  nearest : String

/-- Lines 579–603 of the source: one tick of `loop`. On a non-null detection
(`if (f)`; a returned frequency is ≥ 50, never the falsy `0`) the note data is
derived and published; otherwise every display field is reset. -/
noncomputable def loopTick (N : ℕ) (R : ℝ) (x : ℕ → ℝ) : TickDisplay :=
  match detectRes N R x with
  | some f =>
      ⟨some f, some (freqToMidi f), midiToName (freqToMidi f),
        centsOff f (freqToMidi f), nearestName f⟩
  | none => ⟨none, none, "", 0, "—"⟩

/-- Modelled from the spec (§4.4): the note name as the spec words it — the
twelve-letter cycle indexed by the mathematically non-negative residue
`(midi + 1200) mod 12` — for comparison with the source's `midiToName`. -/
def specNoteName (midi : ℤ) : String :=
  NOTE_NAMES.getD ((midi + 1200) % 12).toNat "undefined" ++ toString (Int.fdiv midi 12 - 1)

/-- The all-zero test buffer. -/
noncomputable def zeroBuf : ℕ → ℝ := fun _ => 0

/-- A unit impulse at sample 1. -/
noncomputable def spikeBuf : ℕ → ℝ := fun i => if i = 1 then 1 else 0

/-- The all-ones test buffer. -/
noncomputable def oneBuf : ℕ → ℝ := fun _ => 1

/-! ### Basic lemmas about the loop sums -/

lemma foldl_add_eq_sum (g : ℕ → ℝ) : ∀ (m : ℕ) (c : ℝ),
    (List.range m).foldl (fun s i => s + g i) c = c + ∑ i in Finset.range m, g i := by
  intro m
  induction m with
  | zero => intro c; simp
  | succ m ih =>
      intro c
      rw [List.range_succ, List.foldl_append, ih c, Finset.sum_range_succ]
      simp [add_assoc]

lemma sumSqLoop_eq (N : ℕ) (w : ℕ → ℝ) :
    sumSqLoop N w = ∑ i in Finset.range N, w i ^ 2 := by
  unfold sumSqLoop
  rw [foldl_add_eq_sum (fun i => w i * w i) N 0, zero_add]
  exact Finset.sum_congr rfl fun i _ => (sq (w i)).symm

lemma acLoop_eq (N : ℕ) (w : ℕ → ℝ) (lag : ℕ) :
    acLoop N w lag = ∑ i in Finset.range (N - lag), w i * w (i + lag) := by
  unfold acLoop
  rw [foldl_add_eq_sum (fun i => w i * w (i + lag)) (N - lag) 0, zero_add]

lemma acLoop_of_len_le (N : ℕ) (w : ℕ → ℝ) (lag : ℕ) (h : N ≤ lag) :
    acLoop N w lag = 0 := by
  unfold acLoop
  rw [Nat.sub_eq_zero_of_le h]
  simp

/-! ### The peak search returns the first argmax of the searched range -/

lemma peakPick_go (acf : ℕ → ℝ) : ∀ (n lo : ℕ), ∃ L,
    (List.range' lo (n + 1)).foldl (peakFold acf) none = some (L, acf L) ∧
    lo ≤ L ∧ L < lo + (n + 1) ∧
    (∀ l, lo ≤ l → l < lo + (n + 1) → acf l ≤ acf L) ∧
    (∀ l, lo ≤ l → l < L → acf l < acf L) := by
  intro n
  induction n with
  | zero =>
      intro lo
      refine ⟨lo, ?_, le_refl lo, by omega, ?_, ?_⟩
      · simp [List.range', peakFold]
      · intro l h1 h2
        have : l = lo := by omega
        simp [this]
      · intro l h1 h2
        omega
  | succ n ih =>
      intro lo
      obtain ⟨L, hfold, hlo, hhi, hmax, hstrict⟩ := ih lo
      have hconcat : List.range' lo (n + 1 + 1) = List.range' lo (n + 1) ++ [lo + (n + 1)] := by
        have := @List.range'_concat 1 lo (n + 1)
        simpa using this
      by_cases hcmp : acf L < acf (lo + (n + 1))
      · refine ⟨lo + (n + 1), ?_, by omega, by omega, ?_, ?_⟩
        · rw [hconcat, List.foldl_append, hfold]
          simp [peakFold, hcmp]
        · intro l h1 h2
          rcases Nat.lt_or_ge l (lo + (n + 1)) with hl | hl
          · exact le_of_lt (lt_of_le_of_lt (hmax l h1 hl) hcmp)
          · have : l = lo + (n + 1) := by omega
            simp [this]
        · intro l h1 h2
          exact lt_of_le_of_lt (hmax l h1 h2) hcmp
      · refine ⟨L, ?_, hlo, by omega, ?_, hstrict⟩
        · rw [hconcat, List.foldl_append, hfold]
          simp [peakFold, hcmp]
        · intro l h1 h2
          rcases Nat.lt_or_ge l (lo + (n + 1)) with hl | hl
          · exact hmax l h1 hl
          · have : l = lo + (n + 1) := by omega
            rw [this]
            exact le_of_not_lt hcmp

lemma peakPick_empty (acf : ℕ → ℝ) (lo hi : ℕ) (h : hi ≤ lo) :
    peakPick acf lo hi = none := by
  unfold peakPick
  rw [Nat.sub_eq_zero_of_le h]
  simp

lemma peakPick_spec (acf : ℕ → ℝ) (lo hi : ℕ) (h : lo < hi) : ∃ L,
    peakPick acf lo hi = some (L, acf L) ∧
    lo ≤ L ∧ L < hi ∧
    (∀ l, lo ≤ l → l < hi → acf l ≤ acf L) ∧
    (∀ l, lo ≤ l → l < L → acf l < acf L) := by
  obtain ⟨n, hn⟩ : ∃ n, hi - lo = n + 1 := ⟨hi - lo - 1, by omega⟩
  obtain ⟨L, hfold, hlo, hhi, hmax, hstrict⟩ := peakPick_go acf n lo
  have hrange : lo + (n + 1) = hi := by omega
  refine ⟨L, ?_, hlo, by omega, ?_, hstrict⟩
  · unfold peakPick
    rw [hn]
    exact hfold
  · intro l h1 h2
    exact hmax l h1 (by omega)

/-! ### The nearest-reference fold returns the first distance minimiser -/

lemma nearestFold_spec (f : ℝ) : ∀ (l : List GuitarString) (p : GuitarString),
    ∃ b pre post,
      l.foldl (nearestStep f) (p, |f - p.freq|) = (b, |f - b.freq|) ∧
      p :: l = pre ++ b :: post ∧
      (∀ s ∈ pre, |f - b.freq| < |f - s.freq|) ∧
      (∀ s ∈ post, |f - b.freq| ≤ |f - s.freq|) := by
  intro l
  induction l with
  | nil =>
      intro p
      exact ⟨p, [], [], rfl, rfl, by simp, by simp⟩
  | cons s l ih =>
      intro p
      by_cases hcmp : |f - s.freq| < |f - p.freq|
      · obtain ⟨b, pre, post, hfold, hdec, hpre, hpost⟩ := ih s
        have hble : |f - b.freq| ≤ |f - s.freq| := by
          have hmem : s ∈ pre ++ b :: post := by rw [← hdec]; simp
          rcases List.mem_append.mp hmem with hs | hs
          · exact le_of_lt (hpre s hs)
          · rcases List.mem_cons.mp hs with hs | hs
            · rw [hs]
            · exact hpost s hs
        refine ⟨b, p :: pre, post, ?_, ?_, ?_, hpost⟩
        · rw [List.foldl_cons]
          rw [show nearestStep f (p, |f - p.freq|) s = (s, |f - s.freq|) by
            simp [nearestStep, hcmp]]
          exact hfold
        · simp [hdec]
        · intro t ht
          rcases List.mem_cons.mp ht with ht | ht
          · rw [ht]
            exact lt_of_le_of_lt hble hcmp
          · exact hpre t ht
      · obtain ⟨b, pre, post, hfold, hdec, hpre, hpost⟩ := ih p
        have hstep : nearestStep f (p, |f - p.freq|) s = (p, |f - p.freq|) := by
          simp [nearestStep, hcmp]
        cases pre with
        | nil =>
            have hb : b = p := by
              have := hdec
              simp at this
              exact this.1.symm
            have hpost2 : post = l := by
              have := hdec
              simp at this
              exact this.2.symm
            refine ⟨p, [], s :: l, ?_, rfl, by simp, ?_⟩
            · rw [List.foldl_cons, hstep, hfold, hb]
            · intro t ht
              rcases List.mem_cons.mp ht with ht | ht
              · rw [ht]
                exact le_of_not_lt hcmp
              · have := hpost t (by rw [hpost2]; exact ht)
                rw [hb] at this
                exact this
        | cons q pre2 =>
            have hq : q = p ∧ l = pre2 ++ b :: post := by
              have := hdec
              simp at this
              exact ⟨this.1.symm, this.2⟩
            have hbp : |f - b.freq| < |f - p.freq| := by
              have := hpre q (by simp)
              rw [hq.1] at this
              exact this
            refine ⟨b, p :: s :: pre2, post, ?_, ?_, ?_, hpost⟩
            · rw [List.foldl_cons, hstep, hfold]
            · simp [hq.2]
            · intro t ht
              rcases List.mem_cons.mp ht with ht | ht
              · rw [ht]
                exact hbp
              · rcases List.mem_cons.mp ht with ht2 | ht2
                · rw [ht2]
                  exact lt_of_lt_of_le hbp (le_of_not_lt hcmp)
                · exact hpre t (by simp [ht2])

lemma nearestRef_spec (f : ℝ) (t : GuitarString) (rest : List GuitarString) :
    ∃ b pre post,
      nearestRef f (t :: rest) = some b ∧
      t :: rest = pre ++ b :: post ∧
      (∀ s ∈ pre, |f - b.freq| < |f - s.freq|) ∧
      (∀ s ∈ t :: rest, |f - b.freq| ≤ |f - s.freq|) := by
  obtain ⟨b, pre, post, hfold, hdec, hpre, hpost⟩ := nearestFold_spec f (t :: rest) t
  have hmin : ∀ s ∈ t :: t :: rest, |f - b.freq| ≤ |f - s.freq| := by
    intro s hs
    have : s ∈ pre ++ b :: post := by rw [← hdec]; exact hs
    rcases List.mem_append.mp this with h | h
    · exact le_of_lt (hpre s h)
    · rcases List.mem_cons.mp h with h | h
      · rw [h]
      · exact hpost s h
  have hres : nearestRef f (t :: rest) = some b := by
    show some ((List.foldl (nearestStep f) (t, |f - t.freq|) (t :: rest)).1) = some b
    rw [hfold]
  cases pre with
  | nil =>
      have hb : b = t := by
        have := hdec
        simp at this
        exact this.1.symm
      refine ⟨b, [], rest, hres, by simp [hb], by simp, ?_⟩
      intro s hs
      exact hmin s (by simp [List.mem_cons.mp hs])
  | cons q pre2 =>
      have hq : q = t ∧ t :: rest = pre2 ++ b :: post := by
        have := hdec
        simp at this
        exact ⟨this.1.symm, this.2⟩
      refine ⟨b, pre2, post, hres, hq.2, ?_, ?_⟩
      · intro s hs
        exact hpre s (by simp [hs])
      · intro s hs
        exact hmin s (by simp [List.mem_cons.mp hs])

/-! ### Concrete evaluations on length-3 buffers -/

lemma hannCoeff_3_0 : hannCoeff 3 0 = 0 := by
  simp [hannCoeff]

lemma hannCoeff_3_1 : hannCoeff 3 1 = 1 := by
  have h : 2 * Real.pi * ((1 : ℕ) : ℝ) / (((3 : ℕ) : ℝ) - 1) = Real.pi := by
    push_cast
    ring
  unfold hannCoeff
  rw [h, Real.cos_pi]
  norm_num

lemma hannCoeff_3_2 : hannCoeff 3 2 = 0 := by
  have h : 2 * Real.pi * ((2 : ℕ) : ℝ) / (((3 : ℕ) : ℝ) - 1) = 2 * Real.pi := by
    push_cast
    ring
  unfold hannCoeff
  rw [h, Real.cos_two_pi]
  norm_num

lemma hannWindowed_spike : ∀ i, hannWindowed 3 spikeBuf i = spikeBuf i := by
  intro i
  unfold hannWindowed spikeBuf
  by_cases h : i < 3
  · rw [if_pos h]
    interval_cases i
    · norm_num
    · norm_num [hannCoeff_3_1]
    · norm_num
  · rw [if_neg h]

lemma hannWindowed_one_vals :
    hannWindowed 3 oneBuf 0 = 0 ∧ hannWindowed 3 oneBuf 1 = 1 ∧ hannWindowed 3 oneBuf 2 = 0 := by
  unfold hannWindowed oneBuf
  norm_num [hannCoeff_3_0, hannCoeff_3_1, hannCoeff_3_2]

lemma sumSqLoop_3 (w : ℕ → ℝ) :
    sumSqLoop 3 w = ((0 + w 0 * w 0) + w 1 * w 1) + w 2 * w 2 := rfl

lemma acLoop_3_1 (w : ℕ → ℝ) : acLoop 3 w 1 = (0 + w 0 * w 1) + w 1 * w 2 := rfl

lemma acLoop_3_2 (w : ℕ → ℝ) : acLoop 3 w 2 = 0 + w 0 * w 2 := rfl

lemma acLoop_3_3 (w : ℕ → ℝ) : acLoop 3 w 3 = 0 := rfl

lemma sqrt_third_not_lt : ¬ (Real.sqrt (1 / 3) < 0.008) := by
  refine not_lt.mpr ?_
  rw [Real.le_sqrt (by norm_num) (by norm_num)]
  norm_num

lemma minLagN_500 : minLagN 500 = 0 := by
  unfold minLagN
  have h : ⌊(500 : ℝ) / 1000⌋ = 0 := by
    rw [Int.floor_eq_iff]
    norm_num
  rw [h]
  rfl

lemma maxLagN_500 : maxLagN 500 = 7 := by
  unfold maxLagN
  have h : ⌊(500 : ℝ) / 70⌋ = 7 := by
    rw [Int.floor_eq_iff]
    norm_num
  rw [h]
  rfl

lemma minLagN_2000 : minLagN 2000 = 2 := by
  unfold minLagN
  have h : ⌊(2000 : ℝ) / 1000⌋ = 2 := by
    rw [Int.floor_eq_iff]
    norm_num
  rw [h]
  rfl

lemma maxLagN_2000 : maxLagN 2000 = 28 := by
  unfold maxLagN
  have h : ⌊(2000 : ℝ) / 70⌋ = 28 := by
    rw [Int.floor_eq_iff]
    norm_num
  rw [h]
  rfl

lemma minLagN_44100 : minLagN 44100 = 44 := by
  unfold minLagN
  have h : ⌊(44100 : ℝ) / 1000⌋ = 44 := by
    rw [Int.floor_eq_iff]
    norm_num
  rw [h]
  rfl

lemma pickAndRefine_eq (N : ℕ) (R : ℝ) (w : ℕ → ℝ) (L : ℕ)
    (hL : peakPick (acLoop N w) (minLagN R) (min (maxLagN R) N) = some (L, acLoop N w L))
    (hL0 : L ≠ 0) :
    pickAndRefine N R w =
      (let y1 := acLoop N w (L - 1)
       let y2 := acLoop N w L
       let y3 := acLoop N w (L + 1)
       let denom := y1 - 2 * y2 + y3
       let shift := if denom = 0 then 0 else 0.5 * (y1 - y3) / denom
       let freq := R / ((L : ℝ) + shift)
       if freq < 50 ∨ 1500 < freq then none else some freq) := by
  unfold pickAndRefine
  rw [hL]
  simp [hL0]

lemma acLoop_3_0 (w : ℕ → ℝ) : acLoop 3 w 0 = ((0 + w 0 * w 0) + w 1 * w 1) + w 2 * w 2 := rfl

lemma ac_spike_0 : acLoop 3 spikeBuf 0 = 1 := by
  rw [acLoop_3_0]
  norm_num [spikeBuf]

lemma ac_spike_1 : acLoop 3 spikeBuf 1 = 0 := by
  rw [acLoop_3_1]
  norm_num [spikeBuf]

lemma ac_spike_2 : acLoop 3 spikeBuf 2 = 0 := by
  rw [acLoop_3_2]
  norm_num [spikeBuf]

lemma spike_vals : spikeBuf 0 = 0 ∧ spikeBuf 1 = 1 ∧ spikeBuf 2 = 0 := by
  norm_num [spikeBuf]

lemma rms_spike : rmsVal 3 (hannWindowed 3 spikeBuf) = Real.sqrt (1 / 3) := by
  unfold rmsVal
  rw [sumSqLoop_3, hannWindowed_spike, hannWindowed_spike, hannWindowed_spike,
    spike_vals.1, spike_vals.2.1, spike_vals.2.2]
  norm_num

lemma ac_w_spike (lag : ℕ) : acLoop 3 (hannWindowed 3 spikeBuf) lag = acLoop 3 spikeBuf lag := by
  unfold acLoop
  congr 1
  funext s i
  rw [hannWindowed_spike, hannWindowed_spike]

lemma peak_spike_2000 :
    peakPick (acLoop 3 (hannWindowed 3 spikeBuf)) (minLagN 2000) (min (maxLagN 2000) 3) =
      some (2, acLoop 3 (hannWindowed 3 spikeBuf) 2) := by
  rw [minLagN_2000, maxLagN_2000]
  rfl

/-- The pipeline on the impulse buffer at sample rate 2000 detects 1000 Hz. -/
lemma detect_spike_2000 : detectRes 3 2000 spikeBuf = some 1000 := by
  unfold detectRes analyzeWindowed
  rw [if_neg (by rw [rms_spike]; exact sqrt_third_not_lt)]
  rw [pickAndRefine_eq 3 2000 (hannWindowed 3 spikeBuf) 2 peak_spike_2000 (by norm_num)]
  norm_num [ac_w_spike, ac_spike_1, ac_spike_2, acLoop_3_3]

lemma peak_spike_500 :
    peakPick (acLoop 3 spikeBuf) (minLagN 500) (min (maxLagN 500) 3) =
      some (0, acLoop 3 spikeBuf 0) := by
  rw [minLagN_500, maxLagN_500]
  show (List.range' 0 3).foldl (peakFold (acLoop 3 spikeBuf)) none = _
  have hr : List.range' 0 3 = [0, 1, 2] := rfl
  rw [hr]
  simp only [List.foldl_cons, List.foldl_nil]
  norm_num [peakFold, ac_spike_0, ac_spike_1, ac_spike_2]

lemma pick_spike_500 : pickAndRefine 3 500 spikeBuf = none := by
  unfold pickAndRefine
  rw [peak_spike_500]
  simp

lemma hannWindowed_zero (i : ℕ) : hannWindowed 3 zeroBuf i = 0 := by
  simp [hannWindowed, zeroBuf]

lemma rms_zero : rmsVal 3 (hannWindowed 3 zeroBuf) = 0 := by
  unfold rmsVal
  rw [sumSqLoop_3, hannWindowed_zero, hannWindowed_zero, hannWindowed_zero]
  norm_num

lemma detect_zero_44100 : detectRes 3 44100 zeroBuf = none := by
  unfold detectRes analyzeWindowed
  rw [if_pos (by rw [rms_zero]; norm_num)]

lemma classify_zero_44100 :
    classifyWindowed 3 44100 (hannWindowed 3 zeroBuf) = PitchClass.silence := by
  unfold classifyWindowed
  rw [if_pos (by rw [rms_zero]; norm_num)]

lemma rms_one : rmsVal 3 (hannWindowed 3 oneBuf) = Real.sqrt (1 / 3) := by
  unfold rmsVal
  rw [sumSqLoop_3, hannWindowed_one_vals.1, hannWindowed_one_vals.2.1,
    hannWindowed_one_vals.2.2]
  norm_num

lemma peak_one_44100_empty :
    peakPick (acLoop 3 (hannWindowed 3 oneBuf)) (minLagN 44100) (min (maxLagN 44100) 3) =
      none := by
  rw [minLagN_44100]
  exact peakPick_empty _ _ _ (le_trans (min_le_right _ _) (by norm_num))

lemma detect_one_44100 : detectRes 3 44100 oneBuf = none := by
  unfold detectRes analyzeWindowed
  rw [if_neg (by rw [rms_one]; exact sqrt_third_not_lt)]
  unfold pickAndRefine
  rw [peak_one_44100_empty]

lemma classify_one_44100 :
    classifyWindowed 3 44100 (hannWindowed 3 oneBuf) = PitchClass.noPitch := by
  unfold classifyWindowed
  rw [if_neg (by rw [rms_one]; exact sqrt_third_not_lt)]
  rw [peak_one_44100_empty]

lemma pickAndRefine_bound (N : ℕ) (R : ℝ) (w : ℕ → ℝ) (f : ℝ)
    (h : pickAndRefine N R w = some f) : 50 ≤ f ∧ f ≤ 1500 := by
  unfold pickAndRefine at h
  split at h
  · simp at h
  · split at h
    · simp at h
    · dsimp only [] at h
      split at h
      all_goals split at h
      all_goals try simp at h
      all_goals rename_i hcond
      all_goals push_neg at hcond
      all_goals subst h
      all_goals simpa using hcond

/-! ### Claim theorems -/

/-- C2: on a window of length N ≥ 3, each sample i is scaled by the Hann
coefficient 0.5*(1 - cos(2*pi*i/(N-1))), the RMS is the square root of the
mean of squares of the windowed signal, any frame whose RMS is below the
0.008 silence threshold is classified as Silence with no downstream analysis
(the detector returns at the gate), and an all-zero window is always Silence. -/
theorem C2_window_and_silence_gate (N : ℕ) (R : ℝ) (x : ℕ → ℝ) (hN : 3 ≤ N) :
    (∀ i, i < N →
      hannWindowed N x i = x i * (0.5 * (1 - Real.cos (2 * Real.pi * (i : ℝ) / ((N : ℝ) - 1))))) ∧
    rmsVal N (hannWindowed N x) =
      Real.sqrt ((∑ i in Finset.range N, hannWindowed N x i ^ 2) / (N : ℝ)) ∧
    (rmsVal N (hannWindowed N x) < 0.008 →
      detectRes N R x = none ∧
      classifyWindowed N R (hannWindowed N x) = PitchClass.silence) ∧
    ((∀ i, x i = 0) →
      detectRes N R x = none ∧
      classifyWindowed N R (hannWindowed N x) = PitchClass.silence) := by
  have hsilent : rmsVal N (hannWindowed N x) < 0.008 →
      detectRes N R x = none ∧
      classifyWindowed N R (hannWindowed N x) = PitchClass.silence := by
    intro h
    constructor
    · unfold detectRes analyzeWindowed
      rw [if_pos h]
    · unfold classifyWindowed
      rw [if_pos h]
  refine ⟨?_, ?_, hsilent, ?_⟩
  · intro i hi
    unfold hannWindowed hannCoeff
    rw [if_pos hi]
  · unfold rmsVal
    rw [sumSqLoop_eq]
  · intro hx
    have hw : ∀ i, hannWindowed N x i = 0 := by
      intro i
      unfold hannWindowed
      rw [hx i]
      simp
    apply hsilent
    have hs : sumSqLoop N (hannWindowed N x) = 0 := by
      rw [sumSqLoop_eq]
      exact Finset.sum_eq_zero fun i _ => by rw [hw i]; ring
    unfold rmsVal
    rw [hs]
    simp
    norm_num

/-- C2 witness: the all-zero window of length 3 at 44100 Hz is classified as
Silence and produces no detection. -/
theorem C2_witness :
    detectRes 3 44100 zeroBuf = none ∧
    classifyWindowed 3 44100 (hannWindowed 3 zeroBuf) = PitchClass.silence :=
  (C2_window_and_silence_gate 3 44100 zeroBuf (by norm_num)).2.2.2 fun _ => rfl

/-- C3: every frequency the detector returns lies inside the global sanity
bound [50, 1500] Hz; a candidate outside the bound is downgraded to a null
result. Over the real-number semantics no NaN or infinity exists; the one
source of a JavaScript infinity (division by a zero refined lag) maps to 0
here and is rejected by the same range check that subsumes isFinite. -/
theorem C3_result_in_sanity_bound (N : ℕ) (R : ℝ) (x : ℕ → ℝ) (f : ℝ)
    (h : detectRes N R x = some f) : 50 ≤ f ∧ f ≤ 1500 := by
  unfold detectRes analyzeWindowed at h
  by_cases h1 : rmsVal N (hannWindowed N x) < 0.008
  · rw [if_pos h1] at h
    simp at h
  · rw [if_neg h1] at h
    exact pickAndRefine_bound N R (hannWindowed N x) f h

/-- C3 witness: the impulse window at 2000 Hz sampling detects 1000 Hz, which
the theorem places inside [50, 1500]. -/
theorem C3_witness :
    detectRes 3 2000 spikeBuf = some 1000 ∧ (50 : ℝ) ≤ 1000 ∧ (1000 : ℝ) ≤ 1500 :=
  ⟨detect_spike_2000, C3_result_in_sanity_bound 3 2000 spikeBuf 1000 detect_spike_2000⟩

/-- C4: with the default search bounds, minLag is the floor of R/1000 and
maxLag the floor of R/70, and for every lag in [minLag, min(maxLag, N)) the
value the peak search reads is the unnormalized autocorrelation
sum over i < N - lag of x[i]*x[i+lag]. -/
theorem C4_lag_bounds_and_autocorrelation (N : ℕ) (R : ℝ) (w : ℕ → ℝ) (hR : 0 < R) :
    ((minLagN R : ℤ) = ⌊R / 1000⌋ ∧ (maxLagN R : ℤ) = ⌊R / 70⌋) ∧
    ∀ lag, minLagN R ≤ lag → lag < min (maxLagN R) N →
      acLoop N w lag = ∑ i in Finset.range (N - lag), w i * w (i + lag) := by
  constructor
  · constructor
    · unfold minLagN
      exact Int.toNat_of_nonneg (Int.floor_nonneg.mpr (div_nonneg hR.le (by norm_num)))
    · unfold maxLagN
      exact Int.toNat_of_nonneg (Int.floor_nonneg.mpr (div_nonneg hR.le (by norm_num)))
  · intro lag _ _
    exact acLoop_eq N w lag

/-- C4 witness: instantiated at the impulse window, R = 2000, lag = 2. -/
theorem C4_witness :
    (0 : ℝ) < 2000 ∧
    acLoop 3 spikeBuf 2 = ∑ i in Finset.range (3 - 2), spikeBuf i * spikeBuf (i + 2) :=
  ⟨by norm_num,
    (C4_lag_bounds_and_autocorrelation 3 2000 spikeBuf (by norm_num)).2 2
      (by norm_num [minLagN_2000]) (by norm_num [minLagN_2000, maxLagN_2000])⟩

/-- C10: the detector destructively overwrites its input buffer — after any
call the caller's buffer holds the Hann-windowed samples (for every index
below the window length), and this happens before any analysis, so it holds
even for a call whose result is null; the all-ones window at 44100 Hz is such
a call, and its first raw sample 1 has been replaced by 0. -/
theorem C10_buffer_overwritten (N : ℕ) (R : ℝ) (x : ℕ → ℝ) :
    (detectPitchAutoCorrelation N R x).1 = hannWindowed N x ∧
    (∀ i, i < N → (detectPitchAutoCorrelation N R x).1 i = x i * hannCoeff N i) ∧
    ((detectPitchAutoCorrelation 3 44100 oneBuf).2 = none ∧
      (detectPitchAutoCorrelation 3 44100 oneBuf).1 0 = 0 ∧ oneBuf 0 = 1) := by
  refine ⟨rfl, ?_, ?_, ?_, rfl⟩
  · intro i hi
    show hannWindowed N x i = x i * hannCoeff N i
    unfold hannWindowed
    rw [if_pos hi]
  · exact detect_one_44100
  · exact hannWindowed_one_vals.1

/-- C1 counterexample: at sample rate 500 Hz on the length-3 impulse window
the search range [0, 3) is non-empty and the peak search does set peakLag to
the argmax (lag 0), yet the stage emits a null result — because the source
rejects peakLag <= 0, not only the empty-range sentinel. This refutes the
claim that NoPitch is emitted only when no lag beats the sentinel. -/
theorem C1_counterexample :
    minLagN 500 < min (maxLagN 500) 3 ∧
    peakPick (acLoop 3 spikeBuf) (minLagN 500) (min (maxLagN 500) 3) =
      some (0, acLoop 3 spikeBuf 0) ∧
    pickAndRefine 3 500 spikeBuf = none :=
  ⟨by rw [minLagN_500, maxLagN_500]; norm_num, peak_spike_500, pick_spike_500⟩

/-- C1 (amended): over a non-empty search range the peak picker selects the
first argmax L of the autocorrelation (every searched lag is ≤ it, every
earlier searched lag strictly below it); an empty range yields NoPitch, and
so does L = 0 (possible only when minLag = 0); otherwise the parabolic
interpolation over r[L-1], r[L], r[L+1] (0 beyond the window) with
shift = 0.5*(y1-y3)/denom for nonzero denom = y1-2*y2+y3 and 0 otherwise
produces the candidate R/(L+shift), returned iff it passes the [50, 1500]
sanity bound. -/
theorem C1_first_argmax_and_refine (N : ℕ) (R : ℝ) (w : ℕ → ℝ) :
    (min (maxLagN R) N ≤ minLagN R → pickAndRefine N R w = none) ∧
    (minLagN R < min (maxLagN R) N →
      ∃ L, peakPick (acLoop N w) (minLagN R) (min (maxLagN R) N) = some (L, acLoop N w L) ∧
        minLagN R ≤ L ∧ L < min (maxLagN R) N ∧
        (∀ l, minLagN R ≤ l → l < min (maxLagN R) N → acLoop N w l ≤ acLoop N w L) ∧
        (∀ l, minLagN R ≤ l → l < L → acLoop N w l < acLoop N w L) ∧
        (N ≤ L + 1 → acLoop N w (L + 1) = 0) ∧
        pickAndRefine N R w =
          (if L = 0 then none
           else
             let y1 := acLoop N w (L - 1)
             let y2 := acLoop N w L
             let y3 := acLoop N w (L + 1)
             let denom := y1 - 2 * y2 + y3
             let shift := if denom = 0 then 0 else 0.5 * (y1 - y3) / denom
             let freq := R / ((L : ℝ) + shift)
             if freq < 50 ∨ 1500 < freq then none else some freq)) := by
  constructor
  · intro h
    unfold pickAndRefine
    rw [peakPick_empty _ _ _ h]
  · intro h
    obtain ⟨L, hpk, h1, h2, hmax, hstrict⟩ := peakPick_spec (acLoop N w) _ _ h
    refine ⟨L, hpk, h1, h2, hmax, hstrict, ?_, ?_⟩
    · intro hN
      exact acLoop_of_len_le N w (L + 1) hN
    · by_cases hL0 : L = 0
      · rw [if_pos hL0]
        unfold pickAndRefine
        rw [hpk]
        simp [hL0]
      · rw [pickAndRefine_eq N R w L hpk hL0, if_neg hL0]

/-- C1 witness: the amended theorem instantiated at the impulse window and
sample rate 2000 Hz, whose search range [2, 3) is non-empty. -/
theorem C1_witness :
    minLagN 2000 < min (maxLagN 2000) 3 ∧
    (∃ L, peakPick (acLoop 3 spikeBuf) (minLagN 2000) (min (maxLagN 2000) 3) =
        some (L, acLoop 3 spikeBuf L) ∧
      minLagN 2000 ≤ L ∧ L < min (maxLagN 2000) 3 ∧
      (∀ l, minLagN 2000 ≤ l → l < min (maxLagN 2000) 3 →
        acLoop 3 spikeBuf l ≤ acLoop 3 spikeBuf L) ∧
      (∀ l, minLagN 2000 ≤ l → l < L → acLoop 3 spikeBuf l < acLoop 3 spikeBuf L) ∧
      (3 ≤ L + 1 → acLoop 3 spikeBuf (L + 1) = 0) ∧
      pickAndRefine 3 2000 spikeBuf =
        (if L = 0 then none
         else
           let y1 := acLoop 3 spikeBuf (L - 1)
           let y2 := acLoop 3 spikeBuf L
           let y3 := acLoop 3 spikeBuf (L + 1)
           let denom := y1 - 2 * y2 + y3
           let shift := if denom = 0 then 0 else 0.5 * (y1 - y3) / denom
           let freq := 2000 / ((L : ℝ) + shift)
           if freq < 50 ∨ 1500 < freq then none else some freq)) :=
  ⟨by norm_num [minLagN_2000, maxLagN_2000],
    (C1_first_argmax_and_refine 3 2000 spikeBuf).2
      (by norm_num [minLagN_2000, maxLagN_2000])⟩

lemma analyze_eq_classify (N : ℕ) (R : ℝ) (w : ℕ → ℝ) :
    analyzeWindowed N R w = (classifyWindowed N R w).toResult := by
  unfold analyzeWindowed classifyWindowed pickAndRefine
  by_cases h : rmsVal N w < 0.008
  · rw [if_pos h, if_pos h]
    rfl
  · rw [if_neg h, if_neg h]
    cases hpk : peakPick (acLoop N w) (minLagN R) (min (maxLagN R) N) with
    | none => rfl
    | some pv =>
        dsimp only []
        by_cases h2 : pv.1 = 0
        · simp [h2, PitchClass.toResult]
        · rw [if_neg h2, if_neg h2]
          rw [apply_ite PitchClass.toResult]
          rfl

/-- C6 counterexample: the all-zero window at 44100 Hz is a Silence frame
(sub-threshold energy) and the all-ones window at 44100 Hz is a NoPitch frame
(it passes the energy gate but its search range is empty), yet the detector
returns the identical null to the caller for both, and the published display
state of the two ticks is identical — the caller cannot tell a Silence frame
apart from a NoPitch frame. -/
theorem C6_counterexample :
    classifyWindowed 3 44100 (hannWindowed 3 zeroBuf) = PitchClass.silence ∧
    classifyWindowed 3 44100 (hannWindowed 3 oneBuf) = PitchClass.noPitch ∧
    detectRes 3 44100 zeroBuf = none ∧
    detectRes 3 44100 oneBuf = none ∧
    loopTick 3 44100 zeroBuf = loopTick 3 44100 oneBuf :=
  ⟨classify_zero_44100, classify_one_44100, detect_zero_44100, detect_one_44100, by
    unfold loopTick
    rw [detect_zero_44100, detect_one_44100]⟩

/-- C6 (amended): the per-tick result delivered to the display collaborator
distinguishes only two cases — detection, for which the loop derives the
frequency, MIDI number, note name and cents offset, and non-detection (null),
which covers both the Silence and the NoPitch class: the detector's value is
the image of the internal three-way classification under a map sending both
Silence and NoPitch to the same null. -/
theorem C6_two_way_output (N : ℕ) (R : ℝ) (x : ℕ → ℝ) :
    detectRes N R x = (classifyWindowed N R (hannWindowed N x)).toResult ∧
    PitchClass.toResult PitchClass.silence = PitchClass.toResult PitchClass.noPitch ∧
    (∀ f, detectRes N R x = some f →
      loopTick N R x = ⟨some f, some (freqToMidi f), midiToName (freqToMidi f),
        centsOff f (freqToMidi f), nearestName f⟩) ∧
    (detectRes N R x = none → loopTick N R x = ⟨none, none, "", 0, "—"⟩) := by
  refine ⟨analyze_eq_classify N R (hannWindowed N x), rfl, ?_, ?_⟩
  · intro f hf
    unfold loopTick
    rw [hf]
  · intro hf
    unfold loopTick
    rw [hf]

/-- C6 witness: at the impulse window and 2000 Hz the detector returns
1000 Hz and the loop publishes the derived note data for it. -/
theorem C6_witness :
    detectRes 3 2000 spikeBuf = some 1000 ∧
    loopTick 3 2000 spikeBuf = ⟨some 1000, some (freqToMidi 1000),
      midiToName (freqToMidi 1000), centsOff 1000 (freqToMidi 1000), nearestName 1000⟩ :=
  ⟨detect_spike_2000, (C6_two_way_output 3 2000 spikeBuf).2.2.1 1000 detect_spike_2000⟩

lemma nearestRef_82_guitar : nearestRef 82 GUITAR_STD = some ⟨"E2", 40, 82.4069⟩ := by
  unfold GUITAR_STD
  norm_num [nearestRef, nearestStep, List.foldl_cons, List.foldl_nil, abs_of_nonneg,
    abs_of_nonpos]

/-- C8: for every frequency and every non-empty table the nearest-reference
search returns an entry of the table minimizing the absolute distance, and it
is the first such entry in table order (every entry before it is strictly
farther) — ties go to the earlier entry, so the result is deterministic; in
particular 82 Hz matches the guitar string named E2. -/
theorem C8_nearest_reference :
    (∀ (f : ℝ) (t : GuitarString) (rest : List GuitarString),
      ∃ b pre post, nearestRef f (t :: rest) = some b ∧
        t :: rest = pre ++ b :: post ∧
        (∀ s ∈ pre, |f - b.freq| < |f - s.freq|) ∧
        (∀ s ∈ t :: rest, |f - b.freq| ≤ |f - s.freq|)) ∧
    nearestName 82 = "E2" := by
  refine ⟨nearestRef_spec, ?_⟩
  unfold nearestName
  rw [nearestRef_82_guitar]

/-- C8 witness: the general theorem instantiated at 82 Hz and the guitar
table. -/
theorem C8_witness :
    ∃ b pre post,
      nearestRef 82 (⟨"E2", 40, 82.4069⟩ ::
        [⟨"A2", 45, 110.0⟩, ⟨"D3", 50, 146.832⟩, ⟨"G3", 55, 195.998⟩,
         ⟨"B3", 59, 246.942⟩, ⟨"E4", 64, 329.628⟩]) = some b ∧
      (⟨"E2", 40, 82.4069⟩ : GuitarString) ::
        [⟨"A2", 45, 110.0⟩, ⟨"D3", 50, 146.832⟩, ⟨"G3", 55, 195.998⟩,
         ⟨"B3", 59, 246.942⟩, ⟨"E4", 64, 329.628⟩] = pre ++ b :: post ∧
      (∀ s ∈ pre, |(82 : ℝ) - b.freq| < |(82 : ℝ) - s.freq|) ∧
      (∀ s ∈ (⟨"E2", 40, 82.4069⟩ : GuitarString) ::
        [⟨"A2", 45, 110.0⟩, ⟨"D3", 50, 146.832⟩, ⟨"G3", 55, 195.998⟩,
         ⟨"B3", 59, 246.942⟩, ⟨"E4", 64, 329.628⟩], |(82 : ℝ) - b.freq| ≤ |(82 : ℝ) - s.freq|) :=
  C8_nearest_reference.1 82 ⟨"E2", 40, 82.4069⟩
    [⟨"A2", 45, 110.0⟩, ⟨"D3", 50, 146.832⟩, ⟨"G3", 55, 195.998⟩,
     ⟨"B3", 59, 246.942⟩, ⟨"E4", 64, 329.628⟩]

/-- C7: for every positive frequency, mapping to the nearest MIDI number and
back to the ideal frequency stays within a factor of 2^(1/12) (one semitone
of ratio, about 6 percent) of the original: rounding moves the exact
fractional MIDI value by at most 1/2, i.e. the ratio by at most 2^(1/24). -/
theorem C7_round_trip (f : ℝ) (hf : 0 < f) :
    f * (2 : ℝ) ^ (-(1 : ℝ) / 12) ≤ midiToFreq (freqToMidi f) ∧
    midiToFreq (freqToMidi f) ≤ f * (2 : ℝ) ^ ((1 : ℝ) / 12) := by
  have h2 : (0 : ℝ) < 2 := by norm_num
  have h21 : (2 : ℝ) ≠ 1 := by norm_num
  have hA4 : (0 : ℝ) < A4 := by unfold A4; norm_num
  have hfa : 0 < f / A4 := div_pos hf hA4
  have key : midiToFreq (freqToMidi f) =
      f * (2 : ℝ) ^ ((((freqToMidi f) : ℝ) - (12 * Real.logb 2 (f / A4) + (A4_MIDI : ℝ))) / 12) := by
    unfold midiToFreq
    have hexp : (((freqToMidi f) : ℝ) - (A4_MIDI : ℝ)) / 12 =
        (((freqToMidi f) : ℝ) - (12 * Real.logb 2 (f / A4) + (A4_MIDI : ℝ))) / 12 +
          Real.logb 2 (f / A4) := by ring
    rw [hexp, Real.rpow_add h2, Real.rpow_logb h2 h21 hfa]
    field_simp
    ring
  have hround : |(12 * Real.logb 2 (f / A4) + (A4_MIDI : ℝ)) - ((freqToMidi f) : ℝ)| ≤ 1 / 2 := by
    unfold freqToMidi
    exact abs_sub_round _
  rw [key, abs_le] at *
  constructor
  · apply mul_le_mul_of_nonneg_left _ hf.le
    rw [Real.rpow_le_rpow_left_iff (by norm_num : (1 : ℝ) < 2)]
    linarith [hround.2]
  · apply mul_le_mul_of_nonneg_left _ hf.le
    rw [Real.rpow_le_rpow_left_iff (by norm_num : (1 : ℝ) < 2)]
    linarith [hround.1]

/-- C7 witness: the round trip at 440 Hz. -/
theorem C7_witness :
    (0 : ℝ) < 440 ∧
    (440 * (2 : ℝ) ^ (-(1 : ℝ) / 12) ≤ midiToFreq (freqToMidi 440) ∧
      midiToFreq (freqToMidi 440) ≤ 440 * (2 : ℝ) ^ ((1 : ℝ) / 12)) :=
  ⟨by norm_num, C7_round_trip 440 (by norm_num)⟩

/-- C5 counterexample: at MIDI -1203 (reachable, see the C9 counterexample)
the truncating JavaScript remainder makes the index (-1203 + 1200) % 12 = -3,
the table lookup reads undefined, and the produced name is "undefined-102",
not the cycle name "A-102" the claim prescribes for every MIDI integer. -/
theorem C5_counterexample :
    midiToName (-1203) = "undefined-102" ∧
    specNoteName (-1203) = "A-102" ∧
    midiToName (-1203) ≠ specNoteName (-1203) := by
  refine ⟨by decide, by decide, by decide⟩

/-- C5 (amended): the mapper satisfies its defining equations with
A4 = 440 = MIDI 69 — midi(f) is the rounded 12*log2(f/440) + 69 for every
frequency, centsOff is the rounded 1200*log2(f/ideal) for every frequency and
MIDI number, and for every MIDI number m ≥ -1200 (below that the truncating
remainder leaves the twelve-name cycle) the note name is the cycle indexed by
(m+1200) mod 12 with octave floor(m/12) - 1; noteName(69) = "A4",
noteName(60) = "C4", centsOff(440, 69) = 0. -/
theorem C5_note_mapper_equations :
    (∀ f : ℝ, freqToMidi f = round (12 * Real.logb 2 (f / 440) + 69)) ∧
    (∀ m : ℤ, -1200 ≤ m → midiToName m = specNoteName m) ∧
    (∀ (f : ℝ) (m : ℤ),
      centsOff f m = round (1200 * Real.logb 2 (f / (440 * (2 : ℝ) ^ (((m : ℝ) - 69) / 12))))) ∧
    midiToName 69 = "A4" ∧ midiToName 60 = "C4" ∧ centsOff 440 69 = 0 := by
  refine ⟨?_, ?_, ?_, by decide, by decide, ?_⟩
  · intro f
    unfold freqToMidi A4 A4_MIDI
    norm_num
  · intro m hm
    unfold midiToName specNoteName
    have h0 : (0 : ℤ) ≤ m + 1200 := by omega
    rw [Int.tmod_eq_emod h0 (by norm_num)]
    dsimp only []
    rw [if_pos (Int.emod_nonneg (m + 1200) (by norm_num))]
  · intro f m
    unfold centsOff midiToFreq A4 A4_MIDI
    norm_num
  · unfold centsOff midiToFreq A4 A4_MIDI
    norm_num [Real.rpow_zero, Real.logb_one, round_zero]

/-- C5 witness: the amended name equation instantiated at MIDI 0. -/
theorem C5_witness : midiToName 0 = specNoteName 0 :=
  C5_note_mapper_equations.2.1 0 (by norm_num)

/-- C9 counterexample: the positive frequency 440 * 2^(-106) is mapped by
freqToMidi to -1203, a representable MIDI value for which the index
(midi + 1200) % 12 used by midiToName is negative, so the lookup is
out of bounds and the name degenerates to "undefined-102". -/
theorem C9_counterexample :
    (0 : ℝ) < 440 * (2 : ℝ) ^ (-106 : ℤ) ∧
    freqToMidi (440 * (2 : ℝ) ^ (-106 : ℤ)) = -1203 ∧
    Int.tmod ((-1203 : ℤ) + 1200) 12 < 0 ∧
    midiToName (-1203) = "undefined-102" := by
  refine ⟨by positivity, ?_, by decide, by decide⟩
  unfold freqToMidi A4 A4_MIDI
  have h1 : (440 : ℝ) * (2 : ℝ) ^ (-106 : ℤ) / 440 = (2 : ℝ) ^ (-106 : ℤ) := by
    field_simp
    ring
  rw [h1, ← Real.rpow_intCast 2 (-106), Real.logb_rpow (by norm_num) (by norm_num)]
  have h2 : 12 * ((-106 : ℤ) : ℝ) + ((69 : ℤ) : ℝ) = ((-1203 : ℤ) : ℝ) := by
    push_cast
    ring
  rw [h2, round_intCast]

/-- C9 (amended): for every MIDI value m ≥ -1200 — which covers every value
freqToMidi yields on a frequency the detector can deliver (any f ≥ 50 gives a
MIDI value ≥ -1200) — the index (m+1200) % 12 is non-negative and below the
table length, and midiToName performs an in-bounds lookup of the twelve-name
table. -/
theorem C9_index_in_bounds :
    (∀ m : ℤ, -1200 ≤ m →
      0 ≤ Int.tmod (m + 1200) 12 ∧
      (Int.tmod (m + 1200) 12).toNat < NOTE_NAMES.length ∧
      midiToName m =
        NOTE_NAMES.getD (Int.tmod (m + 1200) 12).toNat "undefined" ++
          toString (Int.fdiv m 12 - 1)) ∧
    (∀ f : ℝ, 50 ≤ f → -1200 ≤ freqToMidi f) := by
  constructor
  · intro m hm
    have h0 : (0 : ℤ) ≤ m + 1200 := by omega
    have ht : 0 ≤ Int.tmod (m + 1200) 12 := Int.tmod_nonneg _ h0
    have htlt : Int.tmod (m + 1200) 12 < 12 :=
      Int.tmod_lt_of_pos (m + 1200) (by norm_num)
    refine ⟨ht, ?_, ?_⟩
    · rw [show NOTE_NAMES.length = 12 from rfl]
      omega
    · unfold midiToName
      dsimp only []
      rw [if_pos ht]
  · intro f hf
    unfold freqToMidi A4 A4_MIDI
    have hq : (1 : ℝ) / 16 ≤ f / 440 := by
      rw [div_le_div_iff (by norm_num) (by norm_num)]
      linarith
    have hlog : Real.logb 2 ((1 : ℝ) / 16) ≤ Real.logb 2 (f / 440) :=
      Real.logb_le_logb_of_le (by norm_num) (by norm_num) hq
    have hval : Real.logb 2 ((1 : ℝ) / 16) = -4 := by
      rw [show (1 : ℝ) / 16 = (2 : ℝ) ^ (-4 : ℤ) by norm_num]
      rw [← Real.rpow_intCast 2 (-4), Real.logb_rpow (by norm_num) (by norm_num)]
      norm_num
    rw [round_eq]
    refine Int.le_floor.mpr ?_
    push_cast
    rw [hval] at hlog
    linarith

/-- C9 witness: the in-bounds index at MIDI 69 and the representable-range
bound at 440 Hz. -/
theorem C9_witness :
    (0 ≤ Int.tmod ((69 : ℤ) + 1200) 12 ∧
      (Int.tmod ((69 : ℤ) + 1200) 12).toNat < NOTE_NAMES.length ∧
      midiToName 69 =
        NOTE_NAMES.getD (Int.tmod ((69 : ℤ) + 1200) 12).toNat "undefined" ++
          toString (Int.fdiv 69 12 - 1)) ∧
    -1200 ≤ freqToMidi 440 :=
  ⟨C9_index_in_bounds.1 69 (by norm_num), C9_index_in_bounds.2 440 (by norm_num)⟩

/-- C10 witness: sample 1 of a length-3 window is scaled by its Hann
coefficient. -/
theorem C10_witness :
    (1 : ℕ) < 3 ∧
    (detectPitchAutoCorrelation 3 44100 oneBuf).1 1 = oneBuf 1 * hannCoeff 3 1 :=
  ⟨by norm_num, (C10_buffer_overwritten 3 44100 oneBuf).2.1 1 (by norm_num)⟩
